import Mathlib

/-!
Verification of the SimSiam satellite-image tutorial notebook
(`tutorial_simsiam_esa.ipynb`).

The notebook trains a SimSiam model, embeds the dataset with the trained
backbone, rescales a 2D projection of the embeddings into the unit square and
renders scatter / nearest-neighbor plots.  Library internals (the ResNet
backbone, the lightly projection and prediction heads, autograd, SGD,
`NegativeCosineSimilarity`, `torch.std`) are modelled as abstract functions;
the notebook's own glue code — the forward pipeline, the training loop with
its exponential moving averages, the collapse-level formula, the embedding
accumulation, the rescaling, the thumbnail selection and the nearest-neighbor
grid — is embedded faithfully, statement by statement.  Real scalars computed
by the notebook are modelled as rationals; `math.sqrt(out_dim)` is carried as
an explicit nonnegative parameter `sq`.
-/

namespace SimSiamESA

/-! ## Tensors with gradient tracking

A tensor is a carried value tagged with whether autograd tracks it
(PyTorch `requires_grad` flag of the result of an operation). -/

structure Tensor (α : Type) where
  val : α
  requires_grad : Bool
  deriving Repr

/-- Models `Tensor.detach()`: same value, gradient tracking removed. -/
def Tensor.detach {α : Type} (t : Tensor α) : Tensor α :=
  ⟨t.val, false⟩

/-- Applying an `nn.Module` whose parameters are trainable (backbone,
projection head, prediction head) in grad-enabled mode: the output is
connected to the parameters, so it requires grad. -/
def applyModule {α β : Type} (f : α → β) (t : Tensor α) : Tensor β :=
  ⟨f t.val, true⟩

/-- A parameter-free tensor operation such as `.flatten(start_dim=1)`:
the value is mapped and gradient tracking is inherited from the input. -/
def Tensor.tmap {α β : Type} (f : α → β) (t : Tensor α) : Tensor β :=
  ⟨f t.val, t.requires_grad⟩

/-! ## The SimSiam model -/

/-- The `SimSiam(nn.Module)` of the notebook: a backbone and two heads.
`flatten` models the `.flatten(start_dim=1)` applied to the backbone output.
The value types are abstract: `I` input batches, `F` backbone features,
`Ff` flattened features, `Z` projections, `P` predictions. -/
structure SimSiam (I F Ff Z P : Type) where
  backbone : I → F
  flatten : F → Ff
  projection_head : Ff → Z
  prediction_head : Z → P

/-- Models `SimSiam.forward`:
`f = backbone(x).flatten(start_dim=1)`, `z = projection_head(f)`,
`p = prediction_head(z)`, `z = z.detach()`, `return z, p`. -/
def SimSiam.forward {I F Ff Z P : Type} (m : SimSiam I F Ff Z P)
    (x : Tensor I) : Tensor Z × Tensor P :=
  let f := (applyModule m.backbone x).tmap m.flatten
  let z := applyModule m.projection_head f
  let p := applyModule m.prediction_head z
  let z := z.detach
  (z, p)

/-! ## The training loop -/

/-- State carried through the training loop: the model parameters `Θ`, the
accumulated gradients `G`, the optimizer's internal state `O`, and the two
logging scalars `avg_loss` and `avg_output_std`. -/
structure TrainState (Θ G O : Type) where
  params : Θ
  grads : G
  opt : O
  avg_loss : ℚ
  avg_output_std : ℚ

/-- The library operations the training loop calls, abstracted:
`model` gives the SimSiam functions at the current parameters;
`criterion` models `lightly.loss.NegativeCosineSimilarity()`;
`gradOfLoss` models what `loss.backward()` adds to the parameter gradients
for a given batch pair; `addG`/`zeroG` model gradient accumulation and
`optimizer.zero_grad()`; `sgdStep` models `optimizer.step()` for SGD with
momentum; `output_std_of` models the mean over dimensions of the
per-dimension standard deviation of the L2-normalized predictions
(`torch.std(normalize(output), 0).mean()`). -/
structure TrainOps (I F Ff Z P Θ G O : Type) where
  model : Θ → SimSiam I F Ff Z P
  criterion : Z → P → ℚ
  gradOfLoss : Θ → I → I → G
  addG : G → G → G
  zeroG : G
  sgdStep : Θ → O → G → Θ × O
  output_std_of : P → ℚ

/-- One iteration of the inner batch loop of the notebook:
`z0, p0 = model(x0)`; `z1, p1 = model(x1)`;
`loss = 0.5 * (criterion(z0, p1) + criterion(z1, p0))`; `loss.backward()`;
`optimizer.step()`; `optimizer.zero_grad()`;
`output = p0.detach()`; `output = normalize(output, dim=1)`;
`output_std = torch.std(output, 0).mean()`; `w = 0.9`;
`avg_loss = w * avg_loss + (1 - w) * loss.item()`;
`avg_output_std = w * avg_output_std + (1 - w) * output_std.item()`. -/
def trainStep {I F Ff Z P Θ G O : Type} (ops : TrainOps I F Ff Z P Θ G O)
    (st : TrainState Θ G O) (x0 x1 : I) : TrainState Θ G O :=
  let m := ops.model st.params
  let zp0 := m.forward ⟨x0, false⟩
  let zp1 := m.forward ⟨x1, false⟩
  let loss := 1 / 2 * (ops.criterion zp0.1.val zp1.2.val + ops.criterion zp1.1.val zp0.2.val)
  let grads := ops.addG st.grads (ops.gradOfLoss st.params x0 x1)
  let stepped := ops.sgdStep st.params st.opt grads
  let grads := ops.zeroG
  let output := zp0.2.detach
  let output_std := ops.output_std_of output.val
  let w : ℚ := 9 / 10
  { params := stepped.1
    grads := grads
    opt := stepped.2
    avg_loss := w * st.avg_loss + (1 - w) * loss
    avg_output_std := w * st.avg_output_std + (1 - w) * output_std }

/-- The state before the epoch loop: fresh parameters and optimizer state,
zeroed gradients, and `avg_loss = 0.`, `avg_output_std = 0.`. -/
def initTrainState {I F Ff Z P Θ G O : Type} (ops : TrainOps I F Ff Z P Θ G O)
    (θ0 : Θ) (o0 : O) : TrainState Θ G O :=
  { params := θ0, grads := ops.zeroG, opt := o0, avg_loss := 0, avg_output_std := 0 }

/-- One epoch: the inner `for (x0, x1), _, _ in dataloader_train_simsiam` loop,
folding `trainStep` over the list of batch pairs. -/
def runEpoch {I F Ff Z P Θ G O : Type} (ops : TrainOps I F Ff Z P Θ G O)
    (st : TrainState Θ G O) (batches : List (I × I)) : TrainState Θ G O :=
  batches.foldl (fun s b => trainStep ops s b.1 b.2) st

/-- The per-epoch diagnostic
`collapse_level = max(0., 1 - math.sqrt(out_dim) * avg_output_std)`;
`sq` stands for `math.sqrt(out_dim)`. -/
def collapseLevel (sq avg_output_std : ℚ) : ℚ :=
  max 0 (1 - sq * avg_output_std)

/-- The outer `for e in range(epochs)` loop: each epoch runs its batches
through `trainStep` (threading the state, so the moving averages are carried
across epochs) and then computes and prints one collapse level. The returned
list collects the printed collapse levels in epoch order. -/
def runTraining {I F Ff Z P Θ G O : Type} (ops : TrainOps I F Ff Z P Θ G O)
    (sq : ℚ) (st : TrainState Θ G O) :
    List (List (I × I)) → TrainState Θ G O × List ℚ
  | [] => (st, [])
  | batches :: rest =>
    let s := runEpoch ops st batches
    let r := runTraining ops sq s rest
    (r.1, collapseLevel sq s.avg_output_std :: r.2)

/-! ## Helper lemmas about the training loop -/

lemma runTraining_snd_length {I F Ff Z P Θ G O : Type} (ops : TrainOps I F Ff Z P Θ G O)
    (sq : ℚ) : ∀ (l : List (List (I × I))) (st : TrainState Θ G O),
    ((runTraining ops sq st l).2).length = l.length := by
  intro l
  induction l with
  | nil => intro st; rfl
  | cons b rest ih =>
    intro st
    simp [runTraining, ih]

lemma runTraining_snd_getD {I F Ff Z P Θ G O : Type} (ops : TrainOps I F Ff Z P Θ G O)
    (sq : ℚ) : ∀ (l : List (List (I × I))) (st : TrainState Θ G O) (e : ℕ),
    e < l.length →
    (runTraining ops sq st l).2.getD e 0
      = collapseLevel sq (((l.take (e + 1)).foldl (runEpoch ops) st).avg_output_std) := by
  intro l
  induction l with
  | nil => intro st e he; simp at he
  | cons b rest ih =>
    intro st e he
    cases e with
    | zero => simp [runTraining]
    | succ e =>
      have he' : e < rest.length := by simpa using he
      simpa [runTraining] using ih (runEpoch ops st b) e he'

/-!  Theorems for the claims about the model and the training loop. -/

/-- Claim C1: `SimSiam.forward` computes the three-stage pipeline
`f = flatten(backbone(x))`, `z = projection_head(f)`, `p = prediction_head(z)`
and returns the pair `(z, p)` where the returned `z` is detached (it does not
require grad) while `p` retains gradients. -/
theorem simsiam_forward_pipeline {I F Ff Z P : Type} (m : SimSiam I F Ff Z P)
    (x : Tensor I) :
    (m.forward x).1.val = m.projection_head (m.flatten (m.backbone x.val)) ∧
    (m.forward x).2.val
      = m.prediction_head (m.projection_head (m.flatten (m.backbone x.val))) ∧
    (m.forward x).1.requires_grad = false ∧
    (m.forward x).2.requires_grad = true :=
  ⟨rfl, rfl, rfl, rfl⟩

/-- Claim C2: each batch iteration runs both augmented views through the
model, uses the symmetric loss `0.5 * (criterion(z0, p1) + criterion(z1, p0))`,
performs one backward pass (accumulating the gradient of this loss) and one
optimizer step on it followed by a gradient reset, and updates the logging
scalars by an exponential moving average with weight `0.9`; before the loop
both averages start at `0`. -/
theorem train_step_spec {I F Ff Z P Θ G O : Type} (ops : TrainOps I F Ff Z P Θ G O)
    (st : TrainState Θ G O) (x0 x1 : I) (θ0 : Θ) (o0 : O) :
    (trainStep ops st x0 x1).avg_loss
      = 9 / 10 * st.avg_loss
        + 1 / 10 * (1 / 2 * (ops.criterion ((ops.model st.params).forward ⟨x0, false⟩).1.val
                               ((ops.model st.params).forward ⟨x1, false⟩).2.val
                             + ops.criterion ((ops.model st.params).forward ⟨x1, false⟩).1.val
                               ((ops.model st.params).forward ⟨x0, false⟩).2.val)) ∧
    (trainStep ops st x0 x1).avg_output_std
      = 9 / 10 * st.avg_output_std
        + 1 / 10 * ops.output_std_of (((ops.model st.params).forward ⟨x0, false⟩).2.detach).val ∧
    (trainStep ops st x0 x1).params
      = (ops.sgdStep st.params st.opt (ops.addG st.grads (ops.gradOfLoss st.params x0 x1))).1 ∧
    (trainStep ops st x0 x1).opt
      = (ops.sgdStep st.params st.opt (ops.addG st.grads (ops.gradOfLoss st.params x0 x1))).2 ∧
    (trainStep ops st x0 x1).grads = ops.zeroG ∧
    (initTrainState ops θ0 o0).avg_loss = 0 ∧
    (initTrainState ops θ0 o0).avg_output_std = 0 := by
  refine ⟨?_, ?_, rfl, rfl, rfl, rfl, rfl⟩
  · show (9 : ℚ) / 10 * st.avg_loss + (1 - 9 / 10) * _ = _
    ring
  · show (9 : ℚ) / 10 * st.avg_output_std + (1 - 9 / 10) * _ = _
    ring

/-- Claim C3: the collapse level is emitted exactly once per epoch, after the
epoch's batch loop, with the value
`max(0, 1 - sqrt(out_dim) * avg_output_std)` where `avg_output_std` is the
moving-average state after folding the batch loop over all batches of the
epochs so far, starting once from `0` (carried across epochs, not reset). -/
theorem collapse_level_once_per_epoch {I F Ff Z P Θ G O : Type}
    (ops : TrainOps I F Ff Z P Θ G O) (sq : ℚ) (θ0 : Θ) (o0 : O)
    (epochBatches : List (List (I × I))) :
    ((runTraining ops sq (initTrainState ops θ0 o0) epochBatches).2).length
      = epochBatches.length ∧
    ∀ e, e < epochBatches.length →
      (runTraining ops sq (initTrainState ops θ0 o0) epochBatches).2.getD e 0
        = collapseLevel sq
            (((epochBatches.take (e + 1)).foldl (runEpoch ops)
                (initTrainState ops θ0 o0)).avg_output_std) :=
  ⟨runTraining_snd_length ops sq epochBatches (initTrainState ops θ0 o0),
   fun e he => runTraining_snd_getD ops sq epochBatches (initTrainState ops θ0 o0) e he⟩

/-- A concrete trivial instantiation of the abstract library operations, used
to evaluate the training-loop theorems on concrete inputs. -/
def trivOps : TrainOps Unit Unit Unit Unit Unit Unit Unit Unit where
  model := fun _ =>
    { backbone := id, flatten := id, projection_head := id, prediction_head := id }
  criterion := fun _ _ => 0
  gradOfLoss := fun _ _ _ => ()
  addG := fun _ _ => ()
  zeroG := ()
  sgdStep := fun p o _ => (p, o)
  output_std_of := fun _ => 0

/-- Concrete evaluation of `collapse_level_once_per_epoch` on a one-epoch,
one-batch training run. -/
theorem collapse_level_once_per_epoch_witness :
    0 < [[((() : Unit), (() : Unit))]].length ∧
    (runTraining trivOps 0 (initTrainState trivOps () ()) [[((), ())]]).2.getD 0 0
      = collapseLevel 0
          ((([[((), ())]].take 1).foldl (runEpoch trivOps)
              (initTrainState trivOps () ())).avg_output_std) :=
  ⟨by decide,
   (collapse_level_once_per_epoch trivOps 0 () () [[((), ())]]).2 0 (by decide)⟩

lemma trainStep_avg_output_std_nonneg {I F Ff Z P Θ G O : Type}
    (ops : TrainOps I F Ff Z P Θ G O) (st : TrainState Θ G O) (x0 x1 : I)
    (hstd : ∀ p, 0 ≤ ops.output_std_of p) (h : 0 ≤ st.avg_output_std) :
    0 ≤ (trainStep ops st x0 x1).avg_output_std := by
  have h1 : (0 : ℚ) ≤ 9 / 10 * st.avg_output_std := by
    have : (0 : ℚ) ≤ 9 / 10 := by norm_num
    exact mul_nonneg this h
  have h2 : (0 : ℚ) ≤ (1 - 9 / 10)
      * ops.output_std_of (((ops.model st.params).forward ⟨x0, false⟩).2.detach).val := by
    have : (0 : ℚ) ≤ 1 - 9 / 10 := by norm_num
    exact mul_nonneg this (hstd _)
  exact add_nonneg h1 h2

lemma runEpoch_avg_output_std_nonneg {I F Ff Z P Θ G O : Type}
    (ops : TrainOps I F Ff Z P Θ G O) (hstd : ∀ p, 0 ≤ ops.output_std_of p) :
    ∀ (batches : List (I × I)) (st : TrainState Θ G O),
    0 ≤ st.avg_output_std → 0 ≤ (runEpoch ops st batches).avg_output_std := by
  intro batches
  induction batches with
  | nil => intro st h; exact h
  | cons b rest ih =>
    intro st h
    have : runEpoch ops st (b :: rest) = runEpoch ops (trainStep ops st b.1 b.2) rest := rfl
    rw [this]
    exact ih _ (trainStep_avg_output_std_nonneg ops st b.1 b.2 hstd h)

lemma collapseLevel_mem_unit {sq a : ℚ} (hsq : 0 ≤ sq) (ha : 0 ≤ a) :
    0 ≤ collapseLevel sq a ∧ collapseLevel sq a ≤ 1 := by
  constructor
  · exact le_max_left 0 _
  · have h1 : (1 : ℚ) - sq * a ≤ 1 := by nlinarith
    exact max_le (by norm_num) h1

lemma runTraining_levels_unit {I F Ff Z P Θ G O : Type}
    (ops : TrainOps I F Ff Z P Θ G O) (sq : ℚ) (hsq : 0 ≤ sq)
    (hstd : ∀ p, 0 ≤ ops.output_std_of p) :
    ∀ (l : List (List (I × I))) (st : TrainState Θ G O),
    0 ≤ st.avg_output_std →
    ∀ c ∈ (runTraining ops sq st l).2, 0 ≤ c ∧ c ≤ 1 := by
  intro l
  induction l with
  | nil => intro st h c hc; simp [runTraining] at hc
  | cons b rest ih =>
    intro st h c hc
    have hs : 0 ≤ (runEpoch ops st b).avg_output_std :=
      runEpoch_avg_output_std_nonneg ops hstd b st h
    simp only [runTraining, List.mem_cons] at hc
    rcases hc with hc | hc
    · subst hc; exact collapseLevel_mem_unit hsq hs
    · exact ih (runEpoch ops st b) hs c hc

/-- Claim C9: every collapse level emitted by the training loop lies in
`[0, 1]`: it is clamped below at `0` by `max`, and since `avg_output_std`
starts at `0` and is a moving average of nonnegative standard deviations it
stays nonnegative, so `1 - sqrt(out_dim) * avg_output_std` never exceeds `1`.
`hsq` records that `math.sqrt(out_dim)` is nonnegative and `hstd` that a
standard deviation is nonnegative. -/
theorem collapse_level_in_unit_interval {I F Ff Z P Θ G O : Type}
    (ops : TrainOps I F Ff Z P Θ G O) (sq : ℚ) (θ0 : Θ) (o0 : O)
    (epochBatches : List (List (I × I)))
    (hsq : 0 ≤ sq) (hstd : ∀ p, 0 ≤ ops.output_std_of p) :
    ∀ c ∈ (runTraining ops sq (initTrainState ops θ0 o0) epochBatches).2,
      0 ≤ c ∧ c ≤ 1 :=
  runTraining_levels_unit ops sq hsq hstd epochBatches (initTrainState ops θ0 o0)
    (le_refl 0)

/-- Concrete evaluation of `collapse_level_in_unit_interval` on a one-epoch,
one-batch training run. -/
theorem collapse_level_in_unit_interval_witness :
    (0 : ℚ) ≤ 0 ∧
    ∀ c ∈ (runTraining trivOps 0 (initTrainState trivOps () ()) [[((), ())]]).2,
      0 ≤ c ∧ c ≤ 1 :=
  ⟨le_refl 0,
   collapse_level_in_unit_interval trivOps 0 () () [[((), ())]] (le_refl 0)
     (fun _ => le_refl 0)⟩

/-! ## The embedding stage -/

/-- One pass over the test dataloader: for every batch
`y = model.backbone(x).flatten(start_dim=1)` is appended to the `embeddings`
list and the batch's filenames are appended to `filenames`
(`embeddings.append(y)` and `filenames = filenames + list(fnames)` in the
same iteration).  A batch is represented by its list of filenames;
`loadImage` models the dataset's image loading plus `test_transforms`, so the
rows of the batch tensor are per-image, and `flat` models
`.flatten(start_dim=1)` applied row-wise. -/
def embedLoop {I F E : Type} (backbone : I → F) (flat : F → E)
    (loadImage : String → I) (batches : List (List String)) :
    List (List E) × List String :=
  batches.foldl
    (fun acc fnames =>
      (acc.1 ++ [fnames.map (fun fn => flat (backbone (loadImage fn)))],
       acc.2 ++ fnames))
    ([], [])

/-- Models `embeddings = torch.cat(embeddings, dim=0)` after the loop: the per-batch
row lists are concatenated into a single row list. -/
def embedImages {I F E : Type} (backbone : I → F) (flat : F → E)
    (loadImage : String → I) (batches : List (List String)) :
    List E × List String :=
  let r := embedLoop backbone flat loadImage batches
  (r.1.flatten, r.2)

lemma embedLoop_eq {I F E : Type} (backbone : I → F) (flat : F → E)
    (loadImage : String → I) :
    ∀ (batches : List (List String)) (acc : List (List E) × List String),
    batches.foldl
      (fun acc fnames =>
        (acc.1 ++ [fnames.map (fun fn => flat (backbone (loadImage fn)))],
         acc.2 ++ fnames)) acc
      = (acc.1 ++ batches.map (fun fns => fns.map (fun fn => flat (backbone (loadImage fn)))),
         acc.2 ++ batches.flatten) := by
  intro batches
  induction batches with
  | nil => intro acc; simp
  | cons b rest ih =>
    intro acc
    simp only [List.foldl_cons, List.map_cons, List.flatten_cons]
    rw [ih]
    simp

/-- Claim C4: after the embedding loop, the accumulated lists are
index-aligned: the filename list is the in-order concatenation of the batch
filename lists, the embedding row list has the same length, and row `i` of
the concatenated embedding matrix is the flattened backbone output of the
image whose path is `filenames[i]`. -/
theorem embeddings_filenames_aligned {I F E : Type} (backbone : I → F)
    (flat : F → E) (loadImage : String → I) (batches : List (List String)) :
    (embedImages backbone flat loadImage batches).2 = batches.flatten ∧
    (embedImages backbone flat loadImage batches).1.length
      = (embedImages backbone flat loadImage batches).2.length ∧
    ∀ i : ℕ,
      (embedImages backbone flat loadImage batches).1[i]?
        = Option.map (fun fn => flat (backbone (loadImage fn)))
            (embedImages backbone flat loadImage batches).2[i]? := by
  have h := embedLoop_eq backbone flat loadImage batches ([], [])
  have h1 : (embedImages backbone flat loadImage batches).1
      = batches.flatten.map (fun fn => flat (backbone (loadImage fn))) := by
    simp only [embedImages, embedLoop, h, List.nil_append]
    exact (List.map_flatten _ _).symm
  have h2 : (embedImages backbone flat loadImage batches).2 = batches.flatten := by
    simp only [embedImages, embedLoop, h, List.nil_append]
  refine ⟨h2, ?_, ?_⟩
  · rw [h1, h2, List.length_map]
  · intro i
    rw [h1, h2, List.getElem?_map]

/-! ## Dataset and dataloader configuration -/

/-- Configuration `path_to_data = '/datasets/sentinel-2-italy-v1/'`. -/
def path_to_data : String := "/datasets/sentinel-2-italy-v1/"

/-- Marker for the one dataset-level transform pipeline of the notebook,
`test_transforms` (resize, to-tensor, imagenet normalization); the training
dataset has no dataset-level transform because its augmentations live in the
collate function. -/
inductive TransformCfg where
  | test_transforms
  deriving DecidableEq, Repr

/-- Configuration of a `lightly.data.LightlyDataset`. -/
structure LightlyDatasetCfg where
  input_dir : String
  transform : Option TransformCfg
  deriving DecidableEq, Repr

/-- Dataset `dataset_train_simsiam = LightlyDataset(input_dir=path_to_data)`. -/
def dataset_train_simsiam : LightlyDatasetCfg :=
  { input_dir := path_to_data, transform := none }

/-- Dataset `dataset_test = LightlyDataset(input_dir=path_to_data, transform=test_transforms)`. -/
def dataset_test : LightlyDatasetCfg :=
  { input_dir := path_to_data, transform := some TransformCfg.test_transforms }

/-- Configuration of a `torch.utils.data.DataLoader` as used here. -/
structure DataLoaderCfg where
  batch_size : ℕ
  shuffle : Bool
  drop_last : Bool
  deriving DecidableEq, Repr

/-- Configuration `batch_size = 128`. -/
def batch_size : ℕ := 128

/-- The training dataloader: `shuffle=True, drop_last=True`. -/
def dataloader_train_simsiam : DataLoaderCfg :=
  { batch_size := batch_size, shuffle := true, drop_last := true }

/-- The embedding dataloader: `shuffle=False, drop_last=False`. -/
def dataloader_test : DataLoaderCfg :=
  { batch_size := batch_size, shuffle := false, drop_last := false }

/-- Claim C6 counterexample: the loader embedded after training is built on
`dataset_test`, which reads the very same image directory `path_to_data` as
the training dataset, so the embedded data is the full image set used for
training, not data held out from (disjoint from) it. -/
theorem embed_loader_same_input_dir :
    dataset_test.input_dir = dataset_train_simsiam.input_dir ∧
    dataset_test.input_dir = path_to_data :=
  ⟨rfl, rfl⟩

/-- Claim C6 (amended): after training, the embedding stage iterates over a
separate loader `dataloader_test` over `dataset_test`; that dataset draws
from the same directory `path_to_data` as the training dataset and differs
only in its transform (deterministic test transforms instead of collate-time
augmentations), and the embedding loader is unshuffled and keeps the last
batch, unlike the shuffled, last-batch-dropping training loader. -/
theorem embed_loader_configuration :
    dataset_test.input_dir = path_to_data ∧
    dataset_train_simsiam.input_dir = path_to_data ∧
    dataset_test.transform = some TransformCfg.test_transforms ∧
    dataset_train_simsiam.transform = none ∧
    dataloader_test.shuffle = false ∧
    dataloader_test.drop_last = false ∧
    dataloader_train_simsiam.shuffle = true ∧
    dataloader_train_simsiam.drop_last = true :=
  ⟨rfl, rfl, rfl, rfl, rfl, rfl, rfl, rfl⟩

/-! ## Rescaling the 2D projection to the unit square

Helpers: `np.max` / `np.min` over a nonempty list of scalars (the notebook
applies them per axis to `embeddings_2d`; numpy raises on an empty array, the
empty case below is an arbitrary default). -/

def amax : List ℚ → ℚ
  | [] => 0
  | x :: xs => xs.foldl max x

def amin : List ℚ → ℚ
  | [] => 0
  | x :: xs => xs.foldl min x

lemma le_foldl_max (l : List ℚ) : ∀ a : ℚ, a ≤ l.foldl max a := by
  induction l with
  | nil => intro a; exact le_refl a
  | cons x xs ih =>
    intro a
    exact le_trans (le_max_left a x) (ih (max a x))

lemma foldl_max_le_of_mem {l : List ℚ} {x : ℚ} (hx : x ∈ l) :
    ∀ a : ℚ, x ≤ l.foldl max a := by
  induction l with
  | nil => cases hx
  | cons y ys ih =>
    intro a
    rcases List.mem_cons.mp hx with h | h
    · subst h
      exact le_trans (le_max_right a x) (le_foldl_max ys (max a x))
    · exact ih h (max a y)

lemma foldl_max_mem (l : List ℚ) : ∀ a : ℚ, l.foldl max a ∈ a :: l := by
  induction l with
  | nil => intro a; simp
  | cons x xs ih =>
    intro a
    have h := ih (max a x)
    rcases max_choice a x with hc | hc <;> rw [hc] at h <;>
      simp only [List.foldl_cons] <;> rcases List.mem_cons.mp h with h' | h' <;>
      simp [h', hc]

lemma foldl_min_le (l : List ℚ) : ∀ a : ℚ, l.foldl min a ≤ a := by
  induction l with
  | nil => intro a; exact le_refl a
  | cons x xs ih =>
    intro a
    exact le_trans (ih (min a x)) (min_le_left a x)

lemma foldl_min_le_of_mem {l : List ℚ} {x : ℚ} (hx : x ∈ l) :
    ∀ a : ℚ, l.foldl min a ≤ x := by
  induction l with
  | nil => cases hx
  | cons y ys ih =>
    intro a
    rcases List.mem_cons.mp hx with h | h
    · subst h
      exact le_trans (foldl_min_le ys (min a x)) (min_le_right a x)
    · exact ih h (min a y)

lemma foldl_min_mem (l : List ℚ) : ∀ a : ℚ, l.foldl min a ∈ a :: l := by
  induction l with
  | nil => intro a; simp
  | cons x xs ih =>
    intro a
    have h := ih (min a x)
    rcases min_choice a x with hc | hc <;> rw [hc] at h <;>
      simp only [List.foldl_cons] <;> rcases List.mem_cons.mp h with h' | h' <;>
      simp [h', hc]

lemma le_amax {l : List ℚ} {x : ℚ} (hx : x ∈ l) : x ≤ amax l := by
  cases l with
  | nil => cases hx
  | cons y ys =>
    rcases List.mem_cons.mp hx with h | h
    · subst h; exact le_foldl_max ys x
    · exact foldl_max_le_of_mem h y

lemma amin_le {l : List ℚ} {x : ℚ} (hx : x ∈ l) : amin l ≤ x := by
  cases l with
  | nil => cases hx
  | cons y ys =>
    rcases List.mem_cons.mp hx with h | h
    · subst h; exact foldl_min_le ys x
    · exact foldl_min_le_of_mem h y

lemma amax_mem {l : List ℚ} (h : l ≠ []) : amax l ∈ l := by
  cases l with
  | nil => exact absurd rfl h
  | cons y ys => exact foldl_max_mem ys y

lemma amin_mem {l : List ℚ} (h : l ≠ []) : amin l ∈ l := by
  cases l with
  | nil => exact absurd rfl h
  | cons y ys => exact foldl_min_mem ys y

lemma amax_eq_of {l : List ℚ} {y : ℚ} (hmem : y ∈ l) (hub : ∀ x ∈ l, x ≤ y) :
    amax l = y :=
  le_antisymm (hub _ (amax_mem (List.ne_nil_of_mem hmem))) (le_amax hmem)

lemma amin_eq_of {l : List ℚ} {y : ℚ} (hmem : y ∈ l) (hlb : ∀ x ∈ l, y ≤ x) :
    amin l = y :=
  le_antisymm (amin_le hmem) (hlb _ (amin_mem (List.ne_nil_of_mem hmem)))

/-- The rescaling cell:
`M = np.max(embeddings_2d, axis=0)`, `m = np.min(embeddings_2d, axis=0)`,
`embeddings_2d = (embeddings_2d - m) / (M - m)`, applied per axis to the list
of projected 2D points. -/
def rescale2d (pts : List (ℚ × ℚ)) : List (ℚ × ℚ) :=
  let M1 := amax (pts.map Prod.fst)
  let M2 := amax (pts.map Prod.snd)
  let m1 := amin (pts.map Prod.fst)
  let m2 := amin (pts.map Prod.snd)
  pts.map (fun p => ((p.1 - m1) / (M1 - m1), (p.2 - m2) / (M2 - m2)))

lemma rescale_axis_bounds {l : List ℚ} (h : amin l < amax l) {x : ℚ} (hx : x ∈ l) :
    0 ≤ (x - amin l) / (amax l - amin l) ∧ (x - amin l) / (amax l - amin l) ≤ 1 := by
  have hd : 0 < amax l - amin l := sub_pos.mpr h
  constructor
  · exact div_nonneg (sub_nonneg.mpr (amin_le hx)) hd.le
  · rw [div_le_one hd]
    have := le_amax hx
    linarith

lemma rescale_axis_min {l : List ℚ} (h : amin l < amax l) :
    amin (l.map (fun x => (x - amin l) / (amax l - amin l))) = 0 := by
  refine amin_eq_of ?_ ?_
  · exact List.mem_map.mpr ⟨amin l, amin_mem (by rintro rfl; simp [amax, amin] at h),
      by rw [sub_self, zero_div]⟩
  · intro y hy
    rcases List.mem_map.mp hy with ⟨x, hx, rfl⟩
    exact (rescale_axis_bounds h hx).1

lemma rescale_axis_max {l : List ℚ} (h : amin l < amax l) :
    amax (l.map (fun x => (x - amin l) / (amax l - amin l))) = 1 := by
  have hd : 0 < amax l - amin l := sub_pos.mpr h
  refine amax_eq_of ?_ ?_
  · exact List.mem_map.mpr ⟨amax l, amax_mem (by rintro rfl; simp [amax, amin] at h),
      div_self (ne_of_gt hd)⟩
  · intro y hy
    rcases List.mem_map.mp hy with ⟨x, hx, rfl⟩
    exact (rescale_axis_bounds h hx).2

/-- Claim C8: under the precondition that on each of the two axes the maximum
projected coordinate strictly exceeds the minimum, every coordinate of the
rescaled `embeddings_2d` lies in `[0, 1]` with per-axis minimum exactly `0`
and maximum exactly `1`; and for a single embedding each axis has maximum
equal to minimum, so the unguarded division `(x - m) / (M - m)` has
denominator `0`. -/
theorem rescale2d_unit_square (pts : List (ℚ × ℚ))
    (h1 : amin (pts.map Prod.fst) < amax (pts.map Prod.fst))
    (h2 : amin (pts.map Prod.snd) < amax (pts.map Prod.snd)) :
    (∀ q ∈ rescale2d pts, (0 ≤ q.1 ∧ q.1 ≤ 1) ∧ (0 ≤ q.2 ∧ q.2 ≤ 1)) ∧
    amin ((rescale2d pts).map Prod.fst) = 0 ∧
    amax ((rescale2d pts).map Prod.fst) = 1 ∧
    amin ((rescale2d pts).map Prod.snd) = 0 ∧
    amax ((rescale2d pts).map Prod.snd) = 1 ∧
    (∀ p : ℚ × ℚ,
      amax ([p].map Prod.fst) - amin ([p].map Prod.fst) = 0 ∧
      amax ([p].map Prod.snd) - amin ([p].map Prod.snd) = 0) := by
  have hfst : (rescale2d pts).map Prod.fst
      = (pts.map Prod.fst).map
          (fun x => (x - amin (pts.map Prod.fst)) / (amax (pts.map Prod.fst) - amin (pts.map Prod.fst))) := by
    simp [rescale2d, List.map_map, Function.comp]
  have hsnd : (rescale2d pts).map Prod.snd
      = (pts.map Prod.snd).map
          (fun x => (x - amin (pts.map Prod.snd)) / (amax (pts.map Prod.snd) - amin (pts.map Prod.snd))) := by
    simp [rescale2d, List.map_map, Function.comp]
  refine ⟨?_, ?_, ?_, ?_, ?_, ?_⟩
  · intro q hq
    rcases List.mem_map.mp hq with ⟨p, hp, rfl⟩
    exact ⟨rescale_axis_bounds h1 (List.mem_map.mpr ⟨p, hp, rfl⟩),
           rescale_axis_bounds h2 (List.mem_map.mpr ⟨p, hp, rfl⟩)⟩
  · rw [hfst]; exact rescale_axis_min h1
  · rw [hfst]; exact rescale_axis_max h1
  · rw [hsnd]; exact rescale_axis_min h2
  · rw [hsnd]; exact rescale_axis_max h2
  · intro p
    constructor <;> simp [amax, amin]

/-- Concrete evaluation of `rescale2d_unit_square` on the two points
`(0, 0)` and `(1, 2)`. -/
theorem rescale2d_unit_square_witness :
    amin ([((0 : ℚ), (0 : ℚ)), (1, 2)].map Prod.fst)
      < amax ([((0 : ℚ), (0 : ℚ)), (1, 2)].map Prod.fst) ∧
    amin ([((0 : ℚ), (0 : ℚ)), (1, 2)].map Prod.snd)
      < amax ([((0 : ℚ), (0 : ℚ)), (1, 2)].map Prod.snd) ∧
    amin ((rescale2d [((0 : ℚ), (0 : ℚ)), (1, 2)]).map Prod.fst) = 0 ∧
    amax ((rescale2d [((0 : ℚ), (0 : ℚ)), (1, 2)]).map Prod.snd) = 1 :=
  ⟨by decide, by decide,
   (rescale2d_unit_square [((0 : ℚ), (0 : ℚ)), (1, 2)] (by decide) (by decide)).2.1,
   (rescale2d_unit_square [((0 : ℚ), (0 : ℚ)), (1, 2)] (by decide) (by decide)).2.2.2.2.1⟩

/-! ## Scatter plot with thumbnails -/

/-- Squared Euclidean distance in the plane, as computed by
`np.sum((embeddings_2d[i] - shown_images) ** 2, 1)` row-wise. -/
def sqDist2 (p q : ℚ × ℚ) : ℚ :=
  (p.1 - q.1) ^ 2 + (p.2 - q.2) ^ 2

lemma sqDist2_comm (p q : ℚ × ℚ) : sqDist2 p q = sqDist2 q p := by
  unfold sqDist2
  ring

/-- Selection state of `get_scatter_plot_with_thumbnails`: the indices of the
thumbnails chosen so far and the positions already occupied. -/
structure ScatterSel where
  shown_images_idx : List ℕ
  shown_images : List (ℚ × ℚ)

/-- Initial state: `shown_images_idx = []`,
`shown_images = np.array([[1., 1.]])` (the sentinel point). -/
def scatterInit : ScatterSel :=
  { shown_images_idx := [], shown_images := [(1, 1)] }

/-- One iteration of the selection loop:
`dist = np.sum((embeddings_2d[i] - shown_images) ** 2, 1)`;
`if np.min(dist) < 2e-3: continue`; otherwise
`shown_images = np.r_[shown_images, [embeddings_2d[i]]]` and
`shown_images_idx.append(i)`. -/
def scatterStep (embeddings_2d : List (ℚ × ℚ)) (s : ScatterSel) (i : ℕ) :
    ScatterSel :=
  if amin (s.shown_images.map (fun q => sqDist2 (embeddings_2d.getD i (0, 0)) q))
      < 2 / 1000 then s
  else
    { shown_images_idx := s.shown_images_idx ++ [i],
      shown_images := s.shown_images ++ [embeddings_2d.getD i (0, 0)] }

/-- The selection phase of `get_scatter_plot_with_thumbnails`: fold the step
over the (shuffled) iterator of dataset indices. -/
def get_scatter_plot_with_thumbnails (embeddings_2d : List (ℚ × ℚ))
    (iterator : List ℕ) : ScatterSel :=
  iterator.foldl (scatterStep embeddings_2d) scatterInit

lemma scatter_foldl_invariant (e2d : List (ℚ × ℚ)) :
    ∀ (it : List ℕ) (s : ScatterSel),
    List.Pairwise (fun p q => 2 / 1000 ≤ sqDist2 p q) s.shown_images →
    s.shown_images = (1, 1) :: s.shown_images_idx.map (fun i => e2d.getD i (0, 0)) →
    List.Pairwise (fun p q => 2 / 1000 ≤ sqDist2 p q)
        (it.foldl (scatterStep e2d) s).shown_images ∧
      (it.foldl (scatterStep e2d) s).shown_images
        = (1, 1) :: (it.foldl (scatterStep e2d) s).shown_images_idx.map
            (fun i => e2d.getD i (0, 0)) := by
  intro it
  induction it with
  | nil => intro s h1 h2; exact ⟨h1, h2⟩
  | cons i rest ih =>
    intro s h1 h2
    simp only [List.foldl_cons]
    by_cases hc : amin (s.shown_images.map (fun q => sqDist2 (e2d.getD i (0, 0)) q))
        < 2 / 1000
    · rw [scatterStep, if_pos hc]
      exact ih s h1 h2
    · rw [scatterStep, if_neg hc]
      refine ih _ ?_ ?_
      · show List.Pairwise _ (s.shown_images ++ [e2d.getD i (0, 0)])
        rw [List.pairwise_append]
        refine ⟨h1, by simp, ?_⟩
        intro a ha b hb
        rcases List.mem_singleton.mp hb with rfl
        have hle : 2 / 1000
            ≤ amin (s.shown_images.map (fun q => sqDist2 (e2d.getD i (0, 0)) q)) :=
          not_lt.mp hc
        have hmm : sqDist2 (e2d.getD i (0, 0)) a
            ∈ s.shown_images.map (fun q => sqDist2 (e2d.getD i (0, 0)) q) :=
          List.mem_map.mpr ⟨a, ha, rfl⟩
        have hm := amin_le hmm
        rw [sqDist2_comm]
        exact le_trans hle hm
      · show s.shown_images ++ [e2d.getD i (0, 0)]
          = (1, 1) :: (s.shown_images_idx ++ [i]).map (fun j => e2d.getD j (0, 0))
        rw [h2]
        simp

/-- Claim C10: in `get_scatter_plot_with_thumbnails`, the occupied positions
(sentinel `(1, 1)` followed by the displayed thumbnail positions, in
acceptance order) are pairwise at squared Euclidean distance at least
`2e-3`, each accepted point being at least that far from all previously
accepted points; consequently any dataset index whose 2D position is within
squared distance `2e-3` of the sentinel `(1, 1)` is never displayed. -/
theorem scatter_thumbnails_spacing (e2d : List (ℚ × ℚ)) (iterator : List ℕ) :
    List.Pairwise (fun p q => 2 / 1000 ≤ sqDist2 p q)
      (get_scatter_plot_with_thumbnails e2d iterator).shown_images ∧
    (get_scatter_plot_with_thumbnails e2d iterator).shown_images
      = (1, 1) :: (get_scatter_plot_with_thumbnails e2d iterator).shown_images_idx.map
          (fun i => e2d.getD i (0, 0)) ∧
    ∀ i, sqDist2 (e2d.getD i (0, 0)) (1, 1) < 2 / 1000 →
      i ∉ (get_scatter_plot_with_thumbnails e2d iterator).shown_images_idx := by
  obtain ⟨h1, h2⟩ := scatter_foldl_invariant e2d iterator scatterInit
    (by simp [scatterInit]) (by simp [scatterInit])
  refine ⟨h1, h2, ?_⟩
  intro i hlt hmem
  have h1' := h1
  rw [h2] at h1'
  have hhead := (List.pairwise_cons.mp h1').1
  have hm : e2d.getD i (0, 0)
      ∈ (get_scatter_plot_with_thumbnails e2d iterator).shown_images_idx.map
          (fun j => e2d.getD j (0, 0)) :=
    List.mem_map.mpr ⟨i, hmem, rfl⟩
  have := hhead _ hm
  rw [sqDist2_comm] at this
  linarith

/-- Concrete evaluation of `scatter_thumbnails_spacing`: with the points
`(0, 0)` and `(1, 1)`, the second point coincides with the sentinel and is
never displayed. -/
theorem scatter_thumbnails_spacing_witness :
    sqDist2 (([((0 : ℚ), (0 : ℚ)), (1, 1)]).getD 1 (0, 0)) (1, 1) < 2 / 1000 ∧
    1 ∉ (get_scatter_plot_with_thumbnails [((0 : ℚ), (0 : ℚ)), (1, 1)]
          [0, 1]).shown_images_idx :=
  ⟨by norm_num [sqDist2, List.getD_cons_succ, List.getD_cons_zero],
   (scatter_thumbnails_spacing [((0 : ℚ), (0 : ℚ)), (1, 1)] [0, 1]).2.2 1
     (by norm_num [sqDist2, List.getD_cons_succ, List.getD_cons_zero])⟩

/-! ## Nearest-neighbor grid -/

/-- Row-wise squared distance:
`np.power(embeddings - embeddings[example_idx], 2).sum(-1)` for one row. -/
def sqDistVec (u v : List ℚ) : ℚ :=
  ((u.zip v).map (fun a => (a.1 - a.2) ^ 2)).sum

/-- The `distances` vector of `plot_nearest_neighbors_3x3`: squared distance
of every embedding row to the chosen center row. -/
def nnDistances (embeddings : List (List ℚ)) (center : List ℚ) : List ℚ :=
  embeddings.map (fun e => sqDistVec e center)

/-- Models `np.argsort(distances)`: the indices `0 .. n-1` ordered by ascending
distance value (ties resolved by the sort; numpy leaves the tie order to its
sorting algorithm). -/
def argsort (d : List ℚ) : List ℕ :=
  List.insertionSort (fun i j => d.getD i 0 ≤ d.getD j 0) (List.range d.length)

/-- The index selection of `plot_nearest_neighbors_3x3`:
`example_idx = filenames.index(example_image)`;
`distances = np.power(embeddings - embeddings[example_idx], 2).sum(-1)`;
`nearest_neighbors = np.argsort(distances)[:n_subplots]` with
`n_subplots = 9`.  The returned indices are displayed in grid order. -/
def plot_nearest_neighbors_3x3 (embeddings : List (List ℚ))
    (filenames : List String) (example_image : String) : List ℕ :=
  let n_subplots := 9
  let example_idx := filenames.indexOf example_image
  let distances := nnDistances embeddings (embeddings.getD example_idx [])
  (argsort distances).take n_subplots

/-- The distances vector used by `plot_nearest_neighbors_3x3`. -/
def nnDistancesOf (embeddings : List (List ℚ)) (filenames : List String)
    (example_image : String) : List ℚ :=
  nnDistances embeddings (embeddings.getD (filenames.indexOf example_image) [])

lemma plot_nearest_eq (embeddings : List (List ℚ)) (filenames : List String)
    (example_image : String) :
    plot_nearest_neighbors_3x3 embeddings filenames example_image
      = (argsort (nnDistancesOf embeddings filenames example_image)).take 9 := rfl

lemma argsort_perm (d : List ℚ) : (argsort d).Perm (List.range d.length) :=
  List.perm_insertionSort _ _

lemma argsort_pairwise (d : List ℚ) :
    List.Pairwise (fun i j => d.getD i 0 ≤ d.getD j 0) (argsort d) := by
  haveI : IsTotal ℕ (fun i j => d.getD i 0 ≤ d.getD j 0) :=
    ⟨fun a b => le_total _ _⟩
  haveI : IsTrans ℕ (fun i j => d.getD i 0 ≤ d.getD j 0) :=
    ⟨fun a b c hab hbc => le_trans hab hbc⟩
  exact List.sorted_insertionSort _ _

lemma sqDistVec_self : ∀ v : List ℚ, sqDistVec v v = 0 := by
  intro v
  induction v with
  | nil => rfl
  | cons x xs ih =>
    have h : ((xs.zip xs).map (fun a => (a.1 - a.2) ^ 2)).sum = 0 := ih
    simp only [sqDistVec, List.zip_cons_cons, List.map_cons, List.sum_cons]
    simp [h, sub_self]

lemma nnDistances_length (embeddings : List (List ℚ)) (center : List ℚ) :
    (nnDistances embeddings center).length = embeddings.length :=
  List.length_map _ _

lemma nnDistancesOf_center_zero (embeddings : List (List ℚ))
    (filenames : List String) (example_image : String)
    (h : filenames.indexOf example_image < embeddings.length) :
    (nnDistancesOf embeddings filenames example_image).getD
        (filenames.indexOf example_image) 0 = 0 := by
  unfold nnDistancesOf nnDistances
  rw [List.getD_eq_getElem?_getD, List.getElem?_map,
    List.getElem?_eq_getElem h]
  simp only [Option.map_some', Option.getD_some]
  rw [List.getD_eq_getElem?_getD, List.getElem?_eq_getElem h]
  exact sqDistVec_self _

/-- Claim C5 counterexample: with two images `"a"`, `"b"` having identical
one-dimensional embeddings `[0]` and `[0]`, the example image `"b"` sits at
index `1`, both distances are `0`, and the grid produced for `"b"` starts
with index `0` — the example image itself is not in the first position. -/
theorem nn_grid_first_not_example :
    plot_nearest_neighbors_3x3 [[(0 : ℚ)], [0]] ["a", "b"] "b" = [0, 1] ∧
    List.indexOf "b" ["a", "b"] = 1 ∧
    (plot_nearest_neighbors_3x3 [[(0 : ℚ)], [0]] ["a", "b"] "b").getD 0 0 ≠ 1 := by
  refine ⟨?_, by decide, ?_⟩ <;>
    norm_num [plot_nearest_neighbors_3x3, nnDistances, sqDistVec, argsort,
      List.range_succ, List.insertionSort, List.orderedInsert, List.indexOf,
      List.findIdx, List.findIdx.go]

/-- Claim C5 (amended): for an example image whose index is a valid embedding
row and whose embedding is the unique one at distance zero (no other image
has an identical embedding), `plot_nearest_neighbors_3x3` selects the first
nine indices of an ascending-by-squared-distance ordering of all dataset
indices — so the selected indices are pairwise ascending in distance, every
selected index is at most as distant as every unselected index, and the
example image itself (distance zero) occupies the first grid position. -/
theorem nn_grid_nearest_ascending (embeddings : List (List ℚ))
    (filenames : List String) (example_image : String)
    (hlt : filenames.indexOf example_image < embeddings.length)
    (huniq : ∀ j ∈ List.range embeddings.length,
      j ≠ filenames.indexOf example_image →
      0 < (nnDistancesOf embeddings filenames example_image).getD j 0) :
    List.Pairwise
      (fun i j => (nnDistancesOf embeddings filenames example_image).getD i 0
        ≤ (nnDistancesOf embeddings filenames example_image).getD j 0)
      (plot_nearest_neighbors_3x3 embeddings filenames example_image) ∧
    (∀ i ∈ plot_nearest_neighbors_3x3 embeddings filenames example_image,
      ∀ j ∈ List.range embeddings.length,
        j ∉ plot_nearest_neighbors_3x3 embeddings filenames example_image →
        (nnDistancesOf embeddings filenames example_image).getD i 0
          ≤ (nnDistancesOf embeddings filenames example_image).getD j 0) ∧
    (plot_nearest_neighbors_3x3 embeddings filenames example_image).getD 0 0
      = filenames.indexOf example_image := by
  set d := nnDistancesOf embeddings filenames example_image with hd
  have hdlen : d.length = embeddings.length := by
    rw [hd]
    unfold nnDistancesOf nnDistances
    exact List.length_map _ _
  have hsorted := argsort_pairwise d
  have hperm := argsort_perm d
  rw [plot_nearest_eq, ← hd]
  have hexmem : filenames.indexOf example_image ∈ argsort d := by
    rw [hperm.mem_iff, List.mem_range, hdlen]
    exact hlt
  refine ⟨List.Pairwise.sublist (List.take_sublist 9 _) hsorted, ?_, ?_⟩
  · intro i hi j hj hjn
    have hjL : j ∈ argsort d := by
      rw [hperm.mem_iff, List.mem_range, hdlen]
      exact List.mem_range.mp hj
    have hjsplit : j ∈ (argsort d).take 9 ++ (argsort d).drop 9 := by
      rw [List.take_append_drop]
      exact hjL
    have hjdrop : j ∈ (argsort d).drop 9 := by
      rcases List.mem_append.mp hjsplit with h | h
      · exact absurd h hjn
      · exact h
    have hP : List.Pairwise (fun i j => d.getD i 0 ≤ d.getD j 0)
        ((argsort d).take 9 ++ (argsort d).drop 9) := by
      rw [List.take_append_drop]
      exact hsorted
    exact (List.pairwise_append.mp hP).2.2 i hi j hjdrop
  · obtain ⟨h0, t, hL⟩ : ∃ h0 t, argsort d = h0 :: t := by
      cases hML : argsort d with
      | nil => rw [hML] at hexmem; cases hexmem
      | cons a b => exact ⟨a, b, rfl⟩
    have hhead : ∀ x ∈ t, d.getD h0 0 ≤ d.getD x 0 := by
      have hs := hsorted
      rw [hL] at hs
      exact (List.pairwise_cons.mp hs).1
    have hh0lt : h0 < embeddings.length := by
      have : h0 ∈ List.range d.length :=
        hperm.mem_iff.mp (by rw [hL]; exact List.mem_cons_self _ _)
      rw [← hdlen]
      exact List.mem_range.mp this
    have hc0 : d.getD (filenames.indexOf example_image) 0 = 0 := by
      rw [hd]
      exact nnDistancesOf_center_zero _ _ _ hlt
    have hh0 : h0 = filenames.indexOf example_image := by
      by_contra hneq
      have hpos := huniq h0 (List.mem_range.mpr hh0lt) hneq
      have hle : d.getD h0 0 ≤ 0 := by
        rcases List.mem_cons.mp (hL ▸ hexmem) with he | he
        · exact absurd he.symm hneq
        · have := hhead _ he
          rw [hc0] at this
          exact this
      rw [hd] at hpos hle
      linarith
    rw [hL, List.take_succ_cons, List.getD_cons_zero]
    exact hh0

/-- Concrete evaluation of `nn_grid_nearest_ascending` on the embeddings
`[0]`, `[5]` with filenames `"a"`, `"b"` and example image `"a"`. -/
theorem nn_grid_nearest_ascending_witness :
    List.indexOf "a" ["a", "b"] < ([[(0 : ℚ)], [5]] : List (List ℚ)).length ∧
    (plot_nearest_neighbors_3x3 [[(0 : ℚ)], [5]] ["a", "b"] "a").getD 0 0
      = List.indexOf "a" ["a", "b"] :=
  ⟨by decide,
   (nn_grid_nearest_ascending [[(0 : ℚ)], [5]] ["a", "b"] "a" (by decide)
     (by
       intro j hj hne
       have h0 : List.indexOf "a" ["a", "b"] = 0 := by decide
       rw [h0] at hne
       have hj2 : j < 2 := by simpa using hj
       interval_cases j
       · exact absurd rfl hne
       · norm_num [nnDistancesOf, nnDistances, sqDistVec, h0])).2.2⟩

/-! ## Error propagation

The notebook contains no `try`/`except`, no retry and no input validation, so
library exceptions abort the computation.  Fallible library calls are
modelled as `Except`-valued functions and the notebook's glue code as the
exact composition the cells perform. -/

/-- Models `get_image_as_np_array`: `img = Image.open(filename)`;
`return np.asarray(img)`.  `imageOpen` models the fallible `Image.open`. -/
def get_image_as_np_array {Img Arr ε : Type} (imageOpen : String → Except ε Img)
    (asarray : Img → Arr) (filename : String) : Except ε Arr :=
  (imageOpen filename).map asarray

/-- Models `get_image_as_np_array_with_frame`: loads the image through
`get_image_as_np_array` and puts it inside a black frame (`addFrame` models
the framing arithmetic). -/
def get_image_as_np_array_with_frame {Img Arr ε : Type}
    (imageOpen : String → Except ε Img) (asarray : Img → Arr)
    (addFrame : Arr → Arr) (filename : String) : Except ε Arr :=
  (get_image_as_np_array imageOpen asarray filename).map addFrame

/-- The exception-aware view of `plot_nearest_neighbors_3x3`:
`filenames.index(example_image)` raises `ValueError` when the example image
is absent from `filenames`; otherwise the index selection proceeds as in
`plot_nearest_neighbors_3x3`. -/
def plot_nearest_neighbors_3x3E (embeddings : List (List ℚ))
    (filenames : List String) (example_image : String) :
    Except String (List ℕ) :=
  match filenames.indexOf? example_image with
  | none => Except.error ("ValueError: " ++ example_image ++ " is not in list")
  | some example_idx =>
    Except.ok ((argsort (nnDistances embeddings (embeddings.getD example_idx []))).take 9)

/-- Loading the images of one batch with a fallible loader: the first
exception aborts the batch. -/
def loadBatchE {I ε : Type} (loadImage : String → Except ε I) :
    List String → Except ε (List I)
  | [] => Except.ok []
  | fn :: fns => do
    let x ← loadImage fn
    let xs ← loadBatchE loadImage fns
    pure (x :: xs)

/-- The embedding loop with a fallible image loader: the first exception
raised while loading an image aborts the whole loop. -/
def embedImagesE {I F E ε : Type} (backbone : I → F) (flat : F → E)
    (loadImage : String → Except ε I) (batches : List (List String)) :
    Except ε (List (List E) × List String) :=
  batches.foldlM
    (fun acc fnames => do
      let xs ← loadBatchE loadImage fnames
      pure (acc.1 ++ [xs.map (fun img => flat (backbone img))], acc.2 ++ fnames))
    ([], [])

lemma except_error_bind {α β ε : Type} (e : ε) (f : α → Except ε β) :
    (Except.error e >>= f) = Except.error e := rfl

lemma except_error_map {α β ε : Type} (e : ε) (f : α → β) :
    Except.map f (Except.error e : Except ε α) = Except.error e := rfl

lemma indexOf?_eq_none_of_not_mem {l : List String} {a : String} (h : a ∉ l) :
    l.indexOf? a = none := by
  induction l with
  | nil => rfl
  | cons x xs ih =>
    simp only [List.mem_cons, not_or] at h
    have ih2 : List.findIdx? (fun y => y == a) xs = none := ih h.2
    simp [List.indexOf?, List.findIdx?_cons, ih2, Ne.symm h.1]

/-- Claim C7: no operation catches, retries or recovers from errors and no
input is validated before use: a failing `Image.open` propagates its
exception unchanged through `get_image_as_np_array` and
`get_image_as_np_array_with_frame`; an example filename absent from
`filenames` makes `plot_nearest_neighbors_3x3` raise `ValueError`
unrecovered; and a failing image load aborts the embedding loop with that
very exception, leaving no accumulated state. -/
theorem no_error_recovery {Img Arr ε I F E : Type} :
    (∀ (imageOpen : String → Except ε Img) (asarray : Img → Arr)
        (f : String) (e : ε),
      imageOpen f = Except.error e →
      get_image_as_np_array imageOpen asarray f = Except.error e) ∧
    (∀ (imageOpen : String → Except ε Img) (asarray : Img → Arr)
        (addFrame : Arr → Arr) (f : String) (e : ε),
      imageOpen f = Except.error e →
      get_image_as_np_array_with_frame imageOpen asarray addFrame f
        = Except.error e) ∧
    (∀ (embeddings : List (List ℚ)) (filenames : List String)
        (example_image : String),
      example_image ∉ filenames →
      plot_nearest_neighbors_3x3E embeddings filenames example_image
        = Except.error ("ValueError: " ++ example_image ++ " is not in list")) ∧
    (∀ (backbone : I → F) (flat : F → E) (loadImage : String → Except ε I)
        (fn : String) (fns : List String) (rest : List (List String)) (e : ε),
      loadImage fn = Except.error e →
      embedImagesE backbone flat loadImage ((fn :: fns) :: rest)
        = Except.error e) := by
  refine ⟨?_, ?_, ?_, ?_⟩
  · intro imageOpen asarray f e h
    simp [get_image_as_np_array, h, except_error_map]
  · intro imageOpen asarray addFrame f e h
    simp [get_image_as_np_array_with_frame, get_image_as_np_array, h,
      except_error_map]
  · intro embeddings filenames example_image h
    simp [plot_nearest_neighbors_3x3E, indexOf?_eq_none_of_not_mem h]
  · intro backbone flat loadImage fn fns rest e h
    have h1 : loadBatchE loadImage (fn :: fns) = Except.error e := by
      simp [loadBatchE, h, except_error_bind]
    simp [embedImagesE, List.foldlM_cons, h1, except_error_bind]

/-- Concrete evaluation of `no_error_recovery`: a loader that raises
`FileNotFoundError` and an example filename absent from the list. -/
theorem no_error_recovery_witness :
    ((fun _ : String => (Except.error "FileNotFoundError" : Except String Unit)) "x"
        = Except.error "FileNotFoundError") ∧
    get_image_as_np_array
        (fun _ : String => (Except.error "FileNotFoundError" : Except String Unit))
        (fun _ => ()) "x" = Except.error "FileNotFoundError" ∧
    ("c" ∉ (["a", "b"] : List String)) ∧
    plot_nearest_neighbors_3x3E [] ["a", "b"] "c"
      = Except.error ("ValueError: " ++ "c" ++ " is not in list") ∧
    embedImagesE (fun _ : Unit => ()) (fun _ : Unit => ())
        (fun _ : String => (Except.error "FileNotFoundError" : Except String Unit))
        [["x"]]
      = Except.error "FileNotFoundError" :=
  ⟨rfl,
   (@no_error_recovery Unit Unit String Unit Unit Unit).1 _ _ "x"
     "FileNotFoundError" rfl,
   by decide,
   (@no_error_recovery Unit Unit String Unit Unit Unit).2.2.1 [] ["a", "b"] "c"
     (by decide),
   (@no_error_recovery Unit Unit String Unit Unit Unit).2.2.2 _ _ _ "x" [] []
     "FileNotFoundError" rfl⟩

end SimSiamESA
